import Mathlib

set_option autoImplicit false

/-!
Shallow embedding of `src/communication.cpp`: a minimal REST API server over an
in-memory user store (`Session::users_`), with three handlers
(`handle_get_users`, `handle_get_user`, `handle_create_user`) and a router
(`Session::route_request`).  The transport layer (sockets, TLS) is not
modelled; the router is embedded as a pure function from the request data and
the current store to the response and the next store, exceptions becoming
`Except` errors.
-/

namespace RestApi

/-- JSON values, modelling `boost::json::value` restricted to the shapes this
program produces and consumes (numbers are modelled as integers; the program
never stores non-integer numbers).  Objects are association lists in insertion
order, matching `boost::json::object`. -/
inductive Json where
  | null : Json
  | bool (b : Bool) : Json
  | num (n : Int) : Json
  | str (s : String) : Json
  | arr (elems : List Json) : Json
  | obj (members : List (String × Json)) : Json
deriving Repr, Inhabited

/-- Association-list representation of a `boost::json::object`. -/
abbrev JObj := List (String × Json)

/-- Model of `boost::json::object::size`. -/
def objSize (o : JObj) : Nat := o.length

/-- Lookup of a key in a `boost::json::object` (value of the first member with
that key). -/
def objGet : JObj → String → Option Json
  | [], _ => none
  | (k, v) :: rest, key => if k = key then some v else objGet rest key

/-- Model of `boost::json::object::contains`. -/
def objContains (o : JObj) (key : String) : Bool := (objGet o key).isSome

/-- Model of assignment `o[key] = v` on a `boost::json::object`: replaces the
value of an existing key in place, otherwise appends the new member. -/
def objSet : JObj → String → Json → JObj
  | [], key, v => [(key, v)]
  | (k, w) :: rest, key, v =>
    if k = key then (key, v) :: rest else (k, w) :: objSet rest key v

/-- Model of `boost::json::value::as_object`: the object payload, or an error
(a thrown `std::invalid_argument`) when the value is not an object. -/
def Json.asObject : Json → Except String JObj
  | .obj o => .ok o
  | _ => .error "not an object"

/-- Decimal digit character for `d < 10`. -/
def digitChar (d : Nat) : Char := Char.ofNat (48 + d)

/-- Digit accumulator for `natToString`: with any `fuel > n` it produces the
decimal digits of `n`, most significant first, followed by `acc`. -/
def natDigitsAux : Nat → Nat → List Char → List Char
  | 0, _, acc => acc
  | fuel + 1, n, acc =>
    if n < 10 then digitChar n :: acc
    else natDigitsAux fuel (n / 10) (digitChar (n % 10) :: acc)

/-- Model of `std::to_string` on a nonnegative integer: its decimal digits. -/
def natToString (n : Nat) : String := String.mk (natDigitsAux (n + 1) n [])

/-- Whether a character is a decimal digit. -/
def isDigitChar (c : Char) : Bool := 48 ≤ c.toNat && c.toNat ≤ 57

/-- Numeric value of a list of decimal digit characters. -/
def digitsVal (cs : List Char) : Nat :=
  cs.foldl (fun a c => a * 10 + (c.toNat - 48)) 0

/-- Model of `std::stoi` restricted to the strings this program feeds it:
optionally `-`-signed all-digit strings (real `stoi` additionally skips
leading whitespace and ignores trailing junk, which never occurs here). -/
def stoi (s : String) : Except String Int :=
  match s.data with
  | [] => .error "stoi: invalid argument"
  | c :: cs =>
    if c = '-' then
      if !cs.isEmpty && cs.all isDigitChar then .ok (-(digitsVal cs : Int))
      else .error "stoi: invalid argument"
    else
      if (c :: cs).all isDigitChar then .ok ((digitsVal (c :: cs) : Nat) : Int)
      else .error "stoi: invalid argument"

theorem digitChar_toNat {d : Nat} (h : d < 10) : (digitChar d).toNat = 48 + d := by
  interval_cases d <;> decide

theorem isDigitChar_digitChar {d : Nat} (h : d < 10) :
    isDigitChar (digitChar d) = true := by
  interval_cases d <;> decide

theorem natDigitsAux_eq (n : Nat) : ∀ f acc, n < f →
    natDigitsAux f n acc = natDigitsAux (n + 1) n [] ++ acc := by
  induction n using Nat.strong_induction_on with
  | _ n ih =>
    intro f acc hf
    match f, hf with
    | f + 1, _ =>
      by_cases h : n < 10
      · simp [natDigitsAux, h]
      · have h10 : 10 ≤ n := Nat.le_of_not_lt h
        have hdiv : n / 10 < n := Nat.div_lt_self (by omega) (by omega)
        have hf' : n / 10 < f := by omega
        rw [natDigitsAux, natDigitsAux]
        simp only [h, if_false]
        rw [ih (n / 10) hdiv f _ hf',
            ih (n / 10) hdiv n _ (by omega), List.append_assoc]
        rfl

theorem digitsVal_append_digit (cs : List Char) (c : Char) :
    digitsVal (cs ++ [c]) = digitsVal cs * 10 + (c.toNat - 48) := by
  simp [digitsVal]

theorem digitsVal_natDigits (n : Nat) :
    digitsVal (natDigitsAux (n + 1) n []) = n := by
  induction n using Nat.strong_induction_on with
  | _ n ih =>
    by_cases h : n < 10
    · rw [natDigitsAux]
      simp only [h, if_true]
      simp [digitsVal, digitChar_toNat h]
    · have h10 : 10 ≤ n := Nat.le_of_not_lt h
      have hdiv : n / 10 < n := Nat.div_lt_self (by omega) (by omega)
      rw [natDigitsAux]
      simp only [h, if_false]
      rw [natDigitsAux_eq (n / 10) n _ (by omega), digitsVal_append_digit,
          ih (n / 10) hdiv, digitChar_toNat (Nat.mod_lt n (by omega))]
      omega

theorem natDigits_all_digit (n : Nat) :
    (natDigitsAux (n + 1) n []).all isDigitChar = true := by
  induction n using Nat.strong_induction_on with
  | _ n ih =>
    by_cases h : n < 10
    · rw [natDigitsAux]
      simp only [h, if_true]
      simp [isDigitChar_digitChar h]
    · have h10 : 10 ≤ n := Nat.le_of_not_lt h
      have hdiv : n / 10 < n := Nat.div_lt_self (by omega) (by omega)
      rw [natDigitsAux]
      simp only [h, if_false]
      rw [natDigitsAux_eq (n / 10) n _ (by omega)]
      simp [List.all_append, ih (n / 10) hdiv,
        isDigitChar_digitChar (Nat.mod_lt n (show 0 < 10 by omega))]

theorem natDigits_ne_nil (n : Nat) : natDigitsAux (n + 1) n [] ≠ [] := by
  by_cases h : n < 10
  · rw [natDigitsAux]
    simp [h]
  · have h10 : 10 ≤ n := Nat.le_of_not_lt h
    rw [natDigitsAux]
    simp only [h, if_false]
    rw [natDigitsAux_eq (n / 10) n _ (by omega)]
    simp

theorem stoi_natToString (n : Nat) : stoi (natToString n) = .ok (n : Int) := by
  have hne := natDigits_ne_nil n
  have hall := natDigits_all_digit n
  have hval := digitsVal_natDigits n
  rw [stoi]
  show (match (natDigitsAux (n + 1) n []) with
    | [] => Except.error "stoi: invalid argument"
    | c :: cs =>
      if c = '-' then
        if !cs.isEmpty && cs.all isDigitChar then Except.ok (-(digitsVal cs : Int))
        else Except.error "stoi: invalid argument"
      else
        if (c :: cs).all isDigitChar then Except.ok ((digitsVal (c :: cs) : Nat) : Int)
        else Except.error "stoi: invalid argument") = Except.ok (n : Int)
  match hcs : natDigitsAux (n + 1) n [] with
  | [] => exact absurd hcs hne
  | c :: cs =>
    rw [hcs] at hall hval
    have hc : isDigitChar c = true := by
      have := List.all_eq_true.mp hall c (by simp)
      exact this
    have hcne : ¬(c = '-') := by
      intro hcontra
      rw [hcontra] at hc
      exact absurd hc (by decide)
    simp only [hcne, if_false, hall, if_true, hval]

theorem natToString_inj {a b : Nat} (h : natToString a = natToString b) : a = b := by
  have := congrArg stoi h
  rw [stoi_natToString, stoi_natToString] at this
  exact Int.ofNat.inj (Except.ok.inj this)

/-- Decimal representation of an integer. -/
def intToString (n : Int) : String :=
  if n < 0 then String.mk ('-' :: natDigitsAux (n.natAbs + 1) n.natAbs [])
  else natToString n.toNat

/-- JSON escaping of one character, as `boost::json::serialize` applies it to
the strings this program emits (which contain no control characters). -/
def escapeChar (c : Char) : List Char :=
  if c = '"' then ['\\', '"']
  else if c = '\\' then ['\\', '\\']
  else [c]

/-- JSON escaping of a string. -/
def escapeString (s : String) : String := String.mk (s.data.flatMap escapeChar)

/-- The left and right curly brace characters. -/
def lbrace : Char := Char.ofNat 123

/-- The right curly brace character. -/
def rbrace : Char := Char.ofNat 125

mutual

/-- Model of `boost::json::serialize`: compact output, array elements and
object members in stored order. -/
def Json.serialize : Json → String
  | .null => "null"
  | .bool true => "true"
  | .bool false => "false"
  | .num n => intToString n
  | .str s => String.mk ('"' :: (escapeString s).data ++ ['"'])
  | .arr elems => "[" ++ serializeElems elems ++ "]"
  | .obj members => String.mk [lbrace] ++ serializeMembers members ++ String.mk [rbrace]

/-- Comma-separated serialization of array elements. -/
def serializeElems : List Json → String
  | [] => ""
  | [x] => Json.serialize x
  | x :: y :: rest => Json.serialize x ++ "," ++ serializeElems (y :: rest)

/-- Comma-separated serialization of object members. -/
def serializeMembers : List (String × Json) → String
  | [] => ""
  | [(k, v)] => Json.serialize (.str k) ++ ":" ++ Json.serialize v
  | (k, v) :: m :: rest =>
    Json.serialize (.str k) ++ ":" ++ Json.serialize v ++ "," ++
      serializeMembers (m :: rest)

end

/-- Skip JSON whitespace. -/
def skipWs : List Char → List Char
  | [] => []
  | c :: cs => if c = ' ' ∨ c = '\n' ∨ c = '\t' ∨ c = '\r' then skipWs cs else c :: cs

/-- Parse the body of a JSON string literal after the opening quote; returns
the contents and the input after the closing quote. -/
def parseStringBody : List Char → Except String (List Char × List Char)
  | [] => .error "syntax error: unterminated string"
  | c :: cs =>
    if c = '"' then .ok ([], cs)
    else if c = '\\' then
      match cs with
      | [] => .error "syntax error: unterminated string"
      | e :: cs' =>
        let unescaped : Except String Char :=
          if e = '"' ∨ e = '\\' ∨ e = '/' then .ok e
          else if e = 'n' then .ok '\n'
          else if e = 't' then .ok '\t'
          else if e = 'r' then .ok '\r'
          else .error "syntax error: invalid escape"
        match unescaped with
        | .error msg => .error msg
        | .ok u =>
          match parseStringBody cs' with
          | .ok (body, rest) => .ok (u :: body, rest)
          | .error msg => .error msg
    else
      match parseStringBody cs with
      | .ok (body, rest) => .ok (c :: body, rest)
      | .error msg => .error msg

/-- Split leading decimal digits from the input. -/
def takeDigits : List Char → List Char × List Char
  | [] => ([], [])
  | c :: cs =>
    if isDigitChar c then
      let (ds, rest) := takeDigits cs
      (c :: ds, rest)
    else ([], c :: cs)

mutual

/-- Fuel-bounded recursive-descent JSON value parse. -/
def parseValue : Nat → List Char → Except String (Json × List Char)
  | 0, _ => .error "syntax error: input nested too deeply"
  | fuel + 1, input =>
    match skipWs input with
    | [] => .error "syntax error: unexpected end of input"
    | c :: cs =>
      if c = 'n' then
        match cs with
        | 'u' :: 'l' :: 'l' :: rest => .ok (.null, rest)
        | _ => .error "syntax error: invalid literal"
      else if c = 't' then
        match cs with
        | 'r' :: 'u' :: 'e' :: rest => .ok (.bool true, rest)
        | _ => .error "syntax error: invalid literal"
      else if c = 'f' then
        match cs with
        | 'a' :: 'l' :: 's' :: 'e' :: rest => .ok (.bool false, rest)
        | _ => .error "syntax error: invalid literal"
      else if c = '"' then
        match parseStringBody cs with
        | .ok (body, rest) => .ok (.str (String.mk body), rest)
        | .error msg => .error msg
      else if c = '[' then
        match skipWs cs with
        | [] => .error "syntax error: unexpected end of input"
        | c' :: cs' =>
          if c' = ']' then .ok (.arr [], cs')
          else
            match parseElems fuel (c' :: cs') with
            | .ok (elems, rest) => .ok (.arr elems, rest)
            | .error msg => .error msg
      else if c = lbrace then
        match skipWs cs with
        | [] => .error "syntax error: unexpected end of input"
        | c' :: cs' =>
          if c' = rbrace then .ok (.obj [], cs')
          else
            match parseMembers fuel (c' :: cs') with
            | .ok (members, rest) => .ok (.obj members, rest)
            | .error msg => .error msg
      else if c = '-' then
        match takeDigits cs with
        | ([], _) => .error "syntax error: invalid number"
        | (ds, rest) => .ok (.num (-(digitsVal ds : Int)), rest)
      else if isDigitChar c then
        match takeDigits cs with
        | (ds, rest) => .ok (.num ((digitsVal (c :: ds) : Nat) : Int), rest)
      else .error "syntax error: unexpected character"

/-- Fuel-bounded parse of the elements of a nonempty JSON array, up to and
including the closing bracket. -/
def parseElems : Nat → List Char → Except String (List Json × List Char)
  | 0, _ => .error "syntax error: input nested too deeply"
  | fuel + 1, input =>
    match parseValue fuel input with
    | .error msg => .error msg
    | .ok (v, rest) =>
      match skipWs rest with
      | [] => .error "syntax error: unexpected end of input"
      | c :: cs =>
        if c = ',' then
          match parseElems fuel cs with
          | .ok (elems, rest') => .ok (v :: elems, rest')
          | .error msg => .error msg
        else if c = ']' then .ok ([v], cs)
        else .error "syntax error: expected comma or bracket"

/-- Fuel-bounded parse of the members of a nonempty JSON object, up to and
including the closing brace. -/
def parseMembers : Nat → List Char → Except String (List (String × Json) × List Char)
  | 0, _ => .error "syntax error: input nested too deeply"
  | fuel + 1, input =>
    match skipWs input with
    | [] => .error "syntax error: unexpected end of input"
    | c :: cs =>
      if c = '"' then
        match parseStringBody cs with
        | .error msg => .error msg
        | .ok (keyChars, rest) =>
          match skipWs rest with
          | [] => .error "syntax error: unexpected end of input"
          | c' :: cs' =>
            if c' = ':' then
              match parseValue fuel cs' with
              | .error msg => .error msg
              | .ok (v, rest') =>
                match skipWs rest' with
                | [] => .error "syntax error: unexpected end of input"
                | c'' :: cs'' =>
                  if c'' = ',' then
                    match parseMembers fuel cs'' with
                    | .ok (members, rest'') =>
                      .ok ((String.mk keyChars, v) :: members, rest'')
                    | .error msg => .error msg
                  else if c'' = rbrace then .ok ([(String.mk keyChars, v)], cs'')
                  else .error "syntax error: expected comma or brace"
            else .error "syntax error: expected colon"
      else .error "syntax error: expected string key"

end

/-- Model of `boost::json::parse` on the inputs this program can meet (numbers
restricted to integers); an error models the thrown
`boost::system::system_error`, carrying the parser message. -/
def Json.parse (s : String) : Except String Json :=
  match parseValue (2 * s.data.length + 2) s.data with
  | .error msg => .error msg
  | .ok (v, rest) =>
    match skipWs rest with
    | [] => .ok v
    | _ => .error "syntax error: extra characters"

/-- The seed store `Session::users_`. -/
def seedUsers : JObj :=
  [("1", .obj [("id", .num 1), ("name", .str "Alice")]),
   ("2", .obj [("id", .num 2), ("name", .str "Bob")])]

/-- Model of `Session::handle_get_users`: wraps the stored user values, in
store order, in an array under the key `users`. -/
def handle_get_users (users : JObj) : JObj :=
  objSet [] "users" (.arr (users.map Prod.snd))

/-- Model of `Session::handle_get_user`: the source's
`users_.contains(id)` test followed by `users_[id].as_object()` is modelled by
one lookup; an absent key yields the error envelope. -/
def handle_get_user (users : JObj) (id : String) : Except String JObj :=
  match objGet users id with
  | some v => v.asObject
  | none => .ok (objSet [] "error" (.str "User not found"))

/-- Model of `Session::handle_create_user`: parse the body, require an object,
assign `id = stoi(to_string(size + 1))`, store the object under the string id,
and return the message envelope.  `Except.error` models a thrown exception;
every throwing step precedes the store update, as in the source. -/
def handle_create_user (users : JObj) (body : String) : Except String (JObj × JObj) :=
  match Json.parse body with
  | .error msg => .error msg
  | .ok jv =>
    match jv.asObject with
    | .error msg => .error msg
    | .ok user0 =>
      let new_id := natToString (objSize users + 1)
      match stoi new_id with
      | .error msg => .error msg
      | .ok idNum =>
        let user := objSet user0 "id" (.num idNum)
        let users' := objSet users new_id (.obj user)
        let response := objSet (objSet [] "message" (.str "User created")) "user" (.obj user)
        .ok (response, users')

/-- One HTTP request as `Session::route_request` reads it. -/
structure Request where
  method : String
  target : String
  body : String
  keepAlive : Bool

/-- The response fields `Session::route_request` sets. -/
structure Response where
  status : Nat
  server : String
  contentType : String
  keepAlive : Bool
  body : String
deriving Repr, DecidableEq

/-- The `Server` header value (`BOOST_BEAST_VERSION_STRING`). -/
def serverToken : String := "Boost.Beast"

/-- Model of `std::string::starts_with`. -/
def strStartsWith (s p : String) : Bool := p.data.isPrefixOf s.data

/-- Model of `std::string::substr(n)` to the end of the string. -/
def strDrop (s : String) (n : Nat) : String := String.mk (s.data.drop n)

/-- The single-member error envelope built by the router's 404 and catch
branches. -/
def errObj (msg : String) : JObj := objSet [] "error" (.str msg)

/-- Model of `Session::route_request`: an initial 200 response with the JSON
content type, dispatch on method and target in source order, a caught handler
exception becoming a 400 response; returns the response and the store after
the request. -/
def route_request (req : Request) (users : JObj) : Response × JObj :=
  let res0 : Response :=
    { status := 200, server := serverToken, contentType := "application/json",
      keepAlive := req.keepAlive, body := "" }
  if req.method = "GET" ∧ req.target = "/api/users" then
    ({ res0 with body := Json.serialize (.obj (handle_get_users users)) }, users)
  else if req.method = "GET" ∧ strStartsWith req.target "/api/users/" = true then
    match handle_get_user users (strDrop req.target 11) with
    | .ok o => ({ res0 with body := Json.serialize (.obj o) }, users)
    | .error msg =>
      ({ res0 with status := 400, body := Json.serialize (.obj (errObj msg)) }, users)
  else if req.method = "POST" ∧ req.target = "/api/users" then
    match handle_create_user users req.body with
    | .ok (resp, users') =>
      ({ res0 with status := 201, body := Json.serialize (.obj resp) }, users')
    | .error msg =>
      ({ res0 with status := 400, body := Json.serialize (.obj (errObj msg)) }, users)
  else
    ({ res0 with
        status := 404
        body := Json.serialize (.obj (errObj "Endpoint not found")) }, users)

/-- Stores reachable in the running process: the seed store after some number
of successful creates (create is the only operation that changes the store). -/
inductive Reach : Nat → JObj → Prop where
  | seed : Reach 0 seedUsers
  | step {n : Nat} {users users' resp : JObj} {body : String} :
      Reach n users → handle_create_user users body = .ok (resp, users') →
      Reach (n + 1) users'

theorem objGet_objSet_self (o : JObj) (k : String) (v : Json) :
    objGet (objSet o k v) k = some v := by
  induction o with
  | nil => simp [objSet, objGet]
  | cons p rest ih =>
    obtain ⟨k', v'⟩ := p
    by_cases h : k' = k <;> simp [objSet, objGet, h, ih]

theorem objSet_mem {o : JObj} {k : String} {v : Json} {p : String × Json}
    (h : p ∈ objSet o k v) : p = (k, v) ∨ p ∈ o := by
  induction o with
  | nil => simpa [objSet] using h
  | cons q rest ih =>
    obtain ⟨k', v'⟩ := q
    by_cases h2 : k' = k
    · simp only [objSet, if_pos h2, List.mem_cons] at h
      rcases h with h | h
      · exact Or.inl h
      · exact Or.inr (List.mem_cons_of_mem _ h)
    · simp only [objSet, if_neg h2, List.mem_cons] at h
      rcases h with h | h
      · exact Or.inr (h ▸ List.mem_cons_self _ _)
      · rcases ih h with h | h
        · exact Or.inl h
        · exact Or.inr (List.mem_cons_of_mem _ h)

theorem objSet_of_not_mem {o : JObj} {k : String} (v : Json)
    (h : k ∉ o.map Prod.fst) : objSet o k v = o ++ [(k, v)] := by
  induction o with
  | nil => rfl
  | cons q rest ih =>
    obtain ⟨k', v'⟩ := q
    simp only [List.map_cons, List.mem_cons] at h
    push_neg at h
    have hne : ¬(k' = k) := fun hc => h.1 hc.symm
    simp [objSet, hne, ih h.2]

theorem objGet_eq_none_of_not_mem {o : JObj} {k : String}
    (h : k ∉ o.map Prod.fst) : objGet o k = none := by
  induction o with
  | nil => rfl
  | cons q rest ih =>
    obtain ⟨k', v'⟩ := q
    simp only [List.map_cons, List.mem_cons] at h
    push_neg at h
    have hne : ¬(k' = k) := fun hc => h.1 hc.symm
    simp [objGet, hne, ih h.2]

theorem objGet_mem {o : JObj} {k : String} {v : Json} (h : objGet o k = some v) :
    (k, v) ∈ o := by
  induction o with
  | nil => simp [objGet] at h
  | cons q rest ih =>
    obtain ⟨k', v'⟩ := q
    by_cases h2 : k' = k
    · subst h2
      have hv : v' = v := by simpa [objGet] using h
      subst hv
      exact List.mem_cons_self _ _
    · simp only [objGet, if_neg h2] at h
      exact List.mem_cons_of_mem _ (ih h)

theorem handle_create_user_ok {users : JObj} {body : String} {resp users' : JObj}
    (h : handle_create_user users body = .ok (resp, users')) :
    ∃ user0 : JObj, Json.parse body = .ok (.obj user0) ∧
      users' = objSet users (natToString (objSize users + 1))
        (.obj (objSet user0 "id" (.num ((objSize users + 1 : Nat) : Int)))) ∧
      resp = objSet (objSet [] "message" (.str "User created")) "user"
        (.obj (objSet user0 "id" (.num ((objSize users + 1 : Nat) : Int)))) := by
  rw [handle_create_user] at h
  cases hp : Json.parse body with
  | error msg => rw [hp] at h; exact absurd h (by simp)
  | ok jv =>
    rw [hp] at h
    cases jv with
    | obj user0 =>
      simp only [Json.asObject, stoi_natToString, Except.ok.injEq, Prod.mk.injEq] at h
      exact ⟨user0, rfl, h.2.symm, h.1.symm⟩
    | null => simp [Json.asObject] at h
    | bool b => simp [Json.asObject] at h
    | num n => simp [Json.asObject] at h
    | str s => simp [Json.asObject] at h
    | arr elems => simp [Json.asObject] at h

/-- Keys `"1"` through `natToString m`, in order. -/
def seqKeys (m : Nat) : List String := (List.range m).map (fun i => natToString (i + 1))

theorem seqKeys_length (m : Nat) : (seqKeys m).length = m := by simp [seqKeys]

theorem natToString_not_mem_seqKeys (m : Nat) : natToString (m + 1) ∉ seqKeys m := by
  intro hmem
  simp only [seqKeys, List.mem_map, List.mem_range] at hmem
  obtain ⟨i, hi, heq⟩ := hmem
  have := natToString_inj heq
  omega

theorem reach_keys {n : Nat} {u : JObj} (h : Reach n u) :
    u.map Prod.fst = seqKeys (n + 2) := by
  induction h with
  | seed => rfl
  | @step n users users' resp body hr hc ih =>
    obtain ⟨user0, hp, hu', hresp⟩ := handle_create_user_ok hc
    have hsize : objSize users = n + 2 := by
      have hlen := congrArg List.length ih
      rw [List.length_map, seqKeys_length] at hlen
      exact hlen
    have hfresh : natToString (objSize users + 1) ∉ users.map Prod.fst := by
      rw [ih, hsize]
      exact natToString_not_mem_seqKeys (n + 2)
    rw [hu', objSet_of_not_mem _ hfresh, List.map_append, ih, hsize]
    simp [seqKeys, List.range_succ]

theorem reach_size {n : Nat} {u : JObj} (h : Reach n u) : objSize u = n + 2 := by
  have hlen := congrArg List.length (reach_keys h)
  rw [List.length_map, seqKeys_length] at hlen
  exact hlen

theorem reach_fresh {n : Nat} {u : JObj} (h : Reach n u) :
    objGet u (natToString (objSize u + 1)) = none := by
  apply objGet_eq_none_of_not_mem
  rw [reach_keys h, reach_size h]
  exact natToString_not_mem_seqKeys (n + 2)

theorem reach_values_obj {n : Nat} {u : JObj} (h : Reach n u) :
    ∀ p ∈ u, ∃ o : JObj, p.2 = Json.obj o := by
  induction h with
  | seed =>
    intro p hp
    simp only [seedUsers, List.mem_cons, List.not_mem_nil, or_false] at hp
    rcases hp with h | h <;> exact ⟨_, by rw [h]⟩
  | @step n users users' resp body hr hc ih =>
    obtain ⟨user0, hp, hu', hresp⟩ := handle_create_user_ok hc
    intro p hpmem
    rw [hu'] at hpmem
    rcases objSet_mem hpmem with h | h
    · exact ⟨_, by rw [h]⟩
    · exact ih p h

theorem strStartsWith_append (p s : String) : strStartsWith (p ++ s) p = true := by
  rw [strStartsWith, String.data_append]
  exact List.isPrefixOf_iff_prefix.mpr (List.prefix_append _ _)

theorem strDrop_api_users_append (s : String) :
    strDrop ("/api/users/" ++ s) 11 = s := by
  rw [strDrop, String.data_append,
    show (11 : Nat) = ("/api/users/" : String).data.length from rfl, List.drop_left]

theorem append_ne_api_users (s : String) : ("/api/users/" ++ s) ≠ "/api/users" := by
  intro h
  have hlen := congrArg (fun t : String => t.data.length) h
  simp only [String.data_append, List.length_append] at hlen
  rw [show ("/api/users/" : String).data.length = 11 from rfl,
    show ("/api/users" : String).data.length = 10 from rfl] at hlen
  omega

/-- The response record the router starts from. -/
def initialResponse (ka : Bool) : Response :=
  { status := 200, server := serverToken, contentType := "application/json",
    keepAlive := ka, body := "" }

theorem route_request_eq (req : Request) (users : JObj) :
    route_request req users =
      if req.method = "GET" ∧ req.target = "/api/users" then
        ({ initialResponse req.keepAlive with
            body := Json.serialize (.obj (handle_get_users users)) }, users)
      else if req.method = "GET" ∧ strStartsWith req.target "/api/users/" = true then
        match handle_get_user users (strDrop req.target 11) with
        | .ok o =>
          ({ initialResponse req.keepAlive with
              body := Json.serialize (.obj o) }, users)
        | .error msg =>
          ({ initialResponse req.keepAlive with
              status := 400
              body := Json.serialize (.obj (errObj msg)) }, users)
      else if req.method = "POST" ∧ req.target = "/api/users" then
        match handle_create_user users req.body with
        | .ok (resp, users') =>
          ({ initialResponse req.keepAlive with
              status := 201
              body := Json.serialize (.obj resp) }, users')
        | .error msg =>
          ({ initialResponse req.keepAlive with
              status := 400
              body := Json.serialize (.obj (errObj msg)) }, users)
      else
        ({ initialResponse req.keepAlive with
            status := 404
            body := Json.serialize (.obj (errObj "Endpoint not found")) }, users) := rfl

theorem route_get_list (users : JObj) (b : String) (ka : Bool) :
    route_request ⟨"GET", "/api/users", b, ka⟩ users =
      ({ initialResponse ka with
          body := Json.serialize (.obj (handle_get_users users)) }, users) := rfl

theorem route_get_id (users : JObj) (id b : String) (ka : Bool) :
    route_request ⟨"GET", "/api/users/" ++ id, b, ka⟩ users =
      match handle_get_user users id with
      | .ok o =>
        ({ initialResponse ka with body := Json.serialize (.obj o) }, users)
      | .error msg =>
        ({ initialResponse ka with
            status := 400
            body := Json.serialize (.obj (errObj msg)) }, users) := by
  rw [route_request_eq]
  rw [if_neg (fun hc => append_ne_api_users id hc.2),
    if_pos ⟨rfl, strStartsWith_append "/api/users/" id⟩,
    strDrop_api_users_append]

theorem route_post (users : JObj) (b : String) (ka : Bool) :
    route_request ⟨"POST", "/api/users", b, ka⟩ users =
      match handle_create_user users b with
      | .ok (resp, users') =>
        ({ initialResponse ka with
            status := 201
            body := Json.serialize (.obj resp) }, users')
      | .error msg =>
        ({ initialResponse ka with
            status := 400
            body := Json.serialize (.obj (errObj msg)) }, users) := rfl

theorem route_other (req : Request) (users : JObj)
    (h1 : ¬(req.method = "GET" ∧ req.target = "/api/users"))
    (h2 : ¬(req.method = "GET" ∧ strStartsWith req.target "/api/users/" = true))
    (h3 : ¬(req.method = "POST" ∧ req.target = "/api/users")) :
    route_request req users =
      ({ initialResponse req.keepAlive with
          status := 404
          body := Json.serialize (.obj (errObj "Endpoint not found")) }, users) := by
  rw [route_request_eq, if_neg h1, if_neg h2, if_neg h3]

theorem route_shape (req : Request) (users : JObj) :
    ∃ (s : Nat) (o : JObj) (u' : JObj),
      route_request req users =
        ({ initialResponse req.keepAlive with
            status := s
            body := Json.serialize (.obj o) }, u') := by
  rw [route_request_eq]
  split
  · exact ⟨200, handle_get_users users, users, rfl⟩
  · split
    · split
      · exact ⟨200, _, users, rfl⟩
      · exact ⟨400, _, users, rfl⟩
    · split
      · split
        · exact ⟨201, _, _, rfl⟩
        · exact ⟨400, _, users, rfl⟩
      · exact ⟨404, _, users, rfl⟩

/-- The store invariant of claim C3: every key is the decimal string of the
integer `id` field of the object stored under it. -/
def StoreInv (users : JObj) : Prop :=
  ∀ p ∈ users, ∃ (o : JObj) (m : Nat),
    p.2 = Json.obj o ∧ objGet o "id" = some (.num (m : Int)) ∧ p.1 = natToString m

/-- C1: for every id string, `handle_get_user` returns the stored user object
verbatim when the id is a key of the store (stored values being objects, as in
every store this program builds), and the object `\x7b"error": "User not
found"\x7d` otherwise; the router answers with HTTP status 200 in both
cases. -/
theorem claim_C1 (users : JObj) (id b : String) (ka : Bool)
    (hobj : ∀ p ∈ users, ∃ o : JObj, p.2 = Json.obj o) :
    (∀ o : JObj, objGet users id = some (.obj o) → handle_get_user users id = .ok o) ∧
    (objGet users id = none →
       handle_get_user users id = .ok (errObj "User not found")) ∧
    (route_request ⟨"GET", "/api/users/" ++ id, b, ka⟩ users).1.status = 200 := by
  refine ⟨?_, ?_, ?_⟩
  · intro o ho
    rw [handle_get_user, ho]
    rfl
  · intro ho
    rw [handle_get_user, ho]
    rfl
  · rw [route_get_id]
    cases hv : objGet users id with
    | none =>
      have heq : handle_get_user users id = .ok (objSet [] "error" (.str "User not found")) := by
        rw [handle_get_user, hv]
      rw [heq]
      rfl
    | some v =>
      obtain ⟨o, hvo⟩ := hobj (id, v) (objGet_mem hv)
      have heq : handle_get_user users id = .ok o := by
        rw [handle_get_user, hv, show v = Json.obj o from hvo]
        rfl
      rw [heq]
      rfl

/-- Witness for C1: id `"1"` is present in the seed store and id `"99"` is
treated through the same 200 route. -/
theorem claim_C1_witness :
    handle_get_user seedUsers "1" = .ok [("id", Json.num 1), ("name", Json.str "Alice")] ∧
    (route_request ⟨"GET", "/api/users/" ++ "1", "", true⟩ seedUsers).1.status = 200 :=
  ⟨(claim_C1 seedUsers "1" "" true
      (by intro p hp
          simp only [seedUsers, List.mem_cons, List.not_mem_nil, or_false] at hp
          rcases hp with h | h <;> exact ⟨_, by rw [h]⟩)).1 _ rfl,
   (claim_C1 seedUsers "1" "" true
      (by intro p hp
          simp only [seedUsers, List.mem_cons, List.not_mem_nil, or_false] at hp
          rcases hp with h | h <;> exact ⟨_, by rw [h]⟩)).2.2⟩

/-- C2: every successful create assigns id `size_of_store + 1` under the
decimal-string key of that number, and from the seed store of size 2 the Nth
successful create assigns id `2 + N` (the first assigns 3). -/
theorem claim_C2 :
    (∀ (users : JObj) (body : String) (resp users' : JObj),
       handle_create_user users body = .ok (resp, users') →
       ∃ user : JObj,
         objGet users' (natToString (objSize users + 1)) = some (.obj user) ∧
         objGet user "id" = some (.num ((objSize users + 1 : Nat) : Int)) ∧
         objGet resp "user" = some (.obj user)) ∧
    (∀ (n : Nat) (users : JObj) (body : String) (resp users' : JObj),
       Reach n users →
       handle_create_user users body = .ok (resp, users') →
       ∃ user : JObj,
         objGet users' (natToString (2 + (n + 1))) = some (.obj user) ∧
         objGet user "id" = some (.num ((2 + (n + 1) : Nat) : Int)) ∧
         objGet resp "user" = some (.obj user)) := by
  constructor
  · intro users body resp users' hc
    obtain ⟨user0, hp, hu', hresp⟩ := handle_create_user_ok hc
    refine ⟨objSet user0 "id" (.num ((objSize users + 1 : Nat) : Int)), ?_, ?_, ?_⟩
    · rw [hu', objGet_objSet_self]
    · rw [objGet_objSet_self]
    · rw [hresp, objGet_objSet_self]
  · intro n users body resp users' hr hc
    have hsize := reach_size hr
    obtain ⟨user0, hp, hu', hresp⟩ := handle_create_user_ok hc
    have h2plus : 2 + (n + 1) = objSize users + 1 := by omega
    refine ⟨objSet user0 "id" (.num ((objSize users + 1 : Nat) : Int)), ?_, ?_, ?_⟩
    · rw [h2plus, hu', objGet_objSet_self]
    · rw [h2plus, objGet_objSet_self]
    · rw [hresp, objGet_objSet_self]

/-- Witness for C2: the first create on the seed store assigns id 3. -/
theorem claim_C2_witness :
    ∃ user : JObj,
      objGet (seedUsers ++ [("3", Json.obj [("name", Json.str "Carol"), ("id", Json.num 3)])])
          (natToString (2 + (0 + 1))) = some (.obj user) ∧
      objGet user "id" = some (.num ((2 + (0 + 1) : Nat) : Int)) ∧
      objGet [("message", Json.str "User created"),
        ("user", Json.obj [("name", Json.str "Carol"), ("id", Json.num 3)])] "user" =
        some (.obj user) :=
  claim_C2.2 0 seedUsers "\x7b\"name\":\"Carol\"\x7d"
    [("message", Json.str "User created"),
     ("user", Json.obj [("name", Json.str "Carol"), ("id", Json.num 3)])]
    (seedUsers ++ [("3", Json.obj [("name", Json.str "Carol"), ("id", Json.num 3)])])
    Reach.seed rfl

/-- C3: the store invariant (each key is the decimal string of the `id` field
of its object) holds for the seed entries and is preserved by every create. -/
theorem claim_C3 :
    StoreInv seedUsers ∧
    ∀ (users : JObj) (body : String) (resp users' : JObj),
      StoreInv users → handle_create_user users body = .ok (resp, users') →
      StoreInv users' := by
  constructor
  · intro p hp
    simp only [seedUsers, List.mem_cons, List.not_mem_nil, or_false] at hp
    rcases hp with h | h
    · exact ⟨[("id", .num 1), ("name", .str "Alice")], 1, by rw [h], rfl, by rw [h]; rfl⟩
    · exact ⟨[("id", .num 2), ("name", .str "Bob")], 2, by rw [h], rfl, by rw [h]; rfl⟩
  · intro users body resp users' hinv hc
    obtain ⟨user0, hp, hu', hresp⟩ := handle_create_user_ok hc
    intro p hpmem
    rw [hu'] at hpmem
    rcases objSet_mem hpmem with h | h
    · exact ⟨objSet user0 "id" (.num ((objSize users + 1 : Nat) : Int)), objSize users + 1,
        by rw [h], objGet_objSet_self _ _ _, by rw [h]⟩
    · exact hinv p h

/-- Witness for C3: the invariant after the first create on the seed store. -/
theorem claim_C3_witness :
    StoreInv (seedUsers ++ [("3", Json.obj [("name", Json.str "Carol"), ("id", Json.num 3)])]) :=
  claim_C3.2 seedUsers "\x7b\"name\":\"Carol\"\x7d"
    [("message", Json.str "User created"),
     ("user", Json.obj [("name", Json.str "Carol"), ("id", Json.num 3)])]
    (seedUsers ++ [("3", Json.obj [("name", Json.str "Carol"), ("id", Json.num 3)])])
    claim_C3.1 rfl

/-- C4: the router matches in order: GET on exact `/api/users` gives 200 with
the list body; GET on a `/api/users/` prefix dispatches the 11-character
suffix (possibly empty) to get-user; POST on exact `/api/users` gives 201 with
the create body; everything else gives 404 with the endpoint error body. -/
theorem claim_C4 (users : JObj) (body : String) (ka : Bool) :
    ((route_request ⟨"GET", "/api/users", body, ka⟩ users).1.status = 200 ∧
     (route_request ⟨"GET", "/api/users", body, ka⟩ users).1.body =
       Json.serialize (.obj (handle_get_users users)) ∧
     (route_request ⟨"GET", "/api/users", body, ka⟩ users).2 = users) ∧
    (∀ id o, handle_get_user users id = .ok o →
       (route_request ⟨"GET", "/api/users/" ++ id, body, ka⟩ users).1.status = 200 ∧
       (route_request ⟨"GET", "/api/users/" ++ id, body, ka⟩ users).1.body =
         Json.serialize (.obj o)) ∧
    (∀ resp users', handle_create_user users body = .ok (resp, users') →
       (route_request ⟨"POST", "/api/users", body, ka⟩ users).1.status = 201 ∧
       (route_request ⟨"POST", "/api/users", body, ka⟩ users).1.body =
         Json.serialize (.obj resp) ∧
       (route_request ⟨"POST", "/api/users", body, ka⟩ users).2 = users') ∧
    (∀ method target : String,
       ¬(method = "GET" ∧ target = "/api/users") →
       ¬(method = "GET" ∧ strStartsWith target "/api/users/" = true) →
       ¬(method = "POST" ∧ target = "/api/users") →
       (route_request ⟨method, target, body, ka⟩ users).1.status = 404 ∧
       (route_request ⟨method, target, body, ka⟩ users).1.body =
         Json.serialize (.obj (errObj "Endpoint not found")) ∧
       (route_request ⟨method, target, body, ka⟩ users).2 = users) := by
  refine ⟨⟨rfl, rfl, rfl⟩, ?_, ?_, ?_⟩
  · intro id o h
    rw [route_get_id, h]
    exact ⟨rfl, rfl⟩
  · intro resp users' h
    rw [route_post, h]
    exact ⟨rfl, rfl, rfl⟩
  · intro method target h1 h2 h3
    rw [route_other ⟨method, target, body, ka⟩ users h1 h2 h3]
    exact ⟨rfl, rfl, rfl⟩

/-- Witness for C4: one concrete instance of each guarded branch. -/
theorem claim_C4_witness :
    (route_request ⟨"GET", "/api/users/" ++ "99", "", true⟩ seedUsers).1.status = 200 ∧
    (route_request ⟨"POST", "/api/users", "\x7b\"name\":\"Carol\"\x7d", true⟩ seedUsers).1.status = 201 ∧
    (route_request ⟨"DELETE", "/api/users/1", "", true⟩ seedUsers).1.status = 404 :=
  ⟨((claim_C4 seedUsers "" true).2.1 "99" (errObj "User not found") rfl).1,
   ((claim_C4 seedUsers "\x7b\"name\":\"Carol\"\x7d" true).2.2.1
      [("message", Json.str "User created"),
       ("user", Json.obj [("name", Json.str "Carol"), ("id", Json.num 3)])]
      (seedUsers ++ [("3", Json.obj [("name", Json.str "Carol"), ("id", Json.num 3)])])
      rfl).1,
   ((claim_C4 seedUsers "" true).2.2.2 "DELETE" "/api/users/1"
      (by decide) (by decide) (by decide)).1⟩

/-- C7: every router response carries content type `application/json` and a
body that is the serialization of a JSON object. -/
theorem claim_C7 (req : Request) (users : JObj) :
    (route_request req users).1.contentType = "application/json" ∧
    ∃ o : JObj, (route_request req users).1.body = Json.serialize (.obj o) := by
  obtain ⟨s, o, u', heq⟩ := route_shape req users
  rw [heq]
  exact ⟨rfl, o, rfl⟩

/-- C8: a successful create grows the store, and hence the array returned by
list-users, by exactly one element. -/
theorem claim_C8 (n : Nat) (users : JObj) (body : String) (resp users' : JObj)
    (hr : Reach n users)
    (hc : handle_create_user users body = .ok (resp, users')) :
    objSize users' = objSize users + 1 ∧
    ∃ l l' : List Json,
      objGet (handle_get_users users) "users" = some (.arr l) ∧
      objGet (handle_get_users users') "users" = some (.arr l') ∧
      l'.length = l.length + 1 := by
  obtain ⟨user0, hp, hu', hresp⟩ := handle_create_user_ok hc
  have hfresh : natToString (objSize users + 1) ∉ users.map Prod.fst := by
    rw [reach_keys hr, reach_size hr]
    exact natToString_not_mem_seqKeys (n + 2)
  have happ := objSet_of_not_mem
    (Json.obj (objSet user0 "id" (.num ((objSize users + 1 : Nat) : Int)))) hfresh
  constructor
  · rw [hu', happ]
    simp [objSize]
  · refine ⟨users.map Prod.snd, users'.map Prod.snd, ?_, ?_, ?_⟩
    · rw [handle_get_users]
      exact objGet_objSet_self _ _ _
    · rw [handle_get_users]
      exact objGet_objSet_self _ _ _
    · rw [hu', happ]
      simp

/-- Witness for C8: the first create on the seed store grows it from 2 to 3. -/
theorem claim_C8_witness :
    objSize (seedUsers ++ [("3", Json.obj [("name", Json.str "Carol"), ("id", Json.num 3)])]) =
      objSize seedUsers + 1 ∧
    ∃ l l' : List Json,
      objGet (handle_get_users seedUsers) "users" = some (.arr l) ∧
      objGet (handle_get_users
        (seedUsers ++ [("3", Json.obj [("name", Json.str "Carol"), ("id", Json.num 3)])]))
        "users" = some (.arr l') ∧
      l'.length = l.length + 1 :=
  claim_C8 0 seedUsers "\x7b\"name\":\"Carol\"\x7d"
    [("message", Json.str "User created"),
     ("user", Json.obj [("name", Json.str "Carol"), ("id", Json.num 3)])]
    (seedUsers ++ [("3", Json.obj [("name", Json.str "Carol"), ("id", Json.num 3)])])
    Reach.seed rfl

/-- C9: the read-only handlers leave the store unchanged for every store and
id; the store changes only through the successful create path. -/
theorem claim_C9 (users : JObj) :
    (∀ req : Request, req.method = "GET" → (route_request req users).2 = users) ∧
    (∀ req : Request, (route_request req users).2 ≠ users →
       req.method = "POST" ∧ req.target = "/api/users" ∧
       ∃ resp users', handle_create_user users req.body = .ok (resp, users') ∧
         (route_request req users).2 = users') := by
  constructor
  · intro req hm
    by_cases h1 : req.method = "GET" ∧ req.target = "/api/users"
    · rw [route_request_eq, if_pos h1]
    · by_cases h2 : req.method = "GET" ∧ strStartsWith req.target "/api/users/" = true
      · rw [route_request_eq, if_neg h1, if_pos h2]
        cases hg : handle_get_user users (strDrop req.target 11) <;> rfl
      · have h3 : ¬(req.method = "POST" ∧ req.target = "/api/users") := by
          intro hc
          rw [hm] at hc
          exact absurd hc.1 (by decide)
        rw [route_request_eq, if_neg h1, if_neg h2, if_neg h3]
  · intro req hne
    by_cases h3 : req.method = "POST" ∧ req.target = "/api/users"
    · have h1 : ¬(req.method = "GET" ∧ req.target = "/api/users") := by
        intro hc
        rw [hc.1] at h3
        exact absurd h3.1 (by decide)
      have h2 : ¬(req.method = "GET" ∧ strStartsWith req.target "/api/users/" = true) := by
        intro hc
        rw [hc.1] at h3
        exact absurd h3.1 (by decide)
      cases hc : handle_create_user users req.body with
      | ok pair =>
        obtain ⟨resp, users'⟩ := pair
        refine ⟨h3.1, h3.2, resp, users', rfl, ?_⟩
        rw [route_request_eq, if_neg h1, if_neg h2, if_pos h3, hc]
      | error msg =>
        exfalso
        apply hne
        rw [route_request_eq, if_neg h1, if_neg h2, if_pos h3, hc]
    · exfalso
      apply hne
      by_cases h1 : req.method = "GET" ∧ req.target = "/api/users"
      · rw [route_request_eq, if_pos h1]
      · by_cases h2 : req.method = "GET" ∧ strStartsWith req.target "/api/users/" = true
        · rw [route_request_eq, if_neg h1, if_pos h2]
          cases hg : handle_get_user users (strDrop req.target 11) <;> rfl
        · rw [route_request_eq, if_neg h1, if_neg h2, if_neg h3]

/-- Witness for C9: a GET request leaves the seed store unchanged. -/
theorem claim_C9_witness :
    (route_request ⟨"GET", "/api/users", "", true⟩ seedUsers).2 = seedUsers :=
  (claim_C9 seedUsers).1 _ rfl

end RestApi
